import Mathlib

/-!
Verification of the session-multiplexed transport layer of the RememberBook
MCP server (the `app.post("/mcp")` handler and its surrounding module state).

The embedding models the Express handler as a small-step thread over an
explicit multiplexer state.  Node's run-to-completion semantics is reflected
by making each synchronous segment between `await` points one atomic step of
`threadStep`; `await server.connect(...)` and `await transport.handleRequest(...)`
are the suspension points.  The module-level `sessions` map, the set of
created transports, the engine bindings recorded by `server.connect`, the
`res.on("close", ...)` hooks and the invocations of `transport.close()` are
all explicit fields of `MuxState`, together with a global action trace that
records the program-order of the primitive effects.
-/

namespace Mux

/-- JS truthiness of `req.query.sessionId`, a `string | undefined`:
`undefined` and the empty string are falsy, every other string is truthy.
This is the test performed by `if (!sessionId)`. -/
def jsTruthy : Option String → Bool
  | none => false
  | some s => !(s == "")

/-- The options object passed to `new StreamableHTTPServerTransport({...})`:
`sessionIdGenerator` is `undefined` (`none`) in the stateless branch and
`() => sessionId` (`some sessionId`) in the stateful branch;
`enableJsonResponse` is `true` in both. -/
structure TransportOptions where
  sessionIdGenerator : Option String
  enableJsonResponse : Bool
deriving DecidableEq, Repr

/-- `type SessionRecord = { transport: StreamableHTTPServerTransport }`;
transports are identified by the numeric id assigned at creation. -/
structure SessionRecord where
  transport : Nat
deriving DecidableEq, Repr

/-- The primitive statements a `res.on("close", ...)` callback of the source
can perform: `transport.close()` and `sessions.delete(sessionId)`. -/
inductive HookAction where
  | closeTransport (tid : Nat)
  | deleteSession (sid : String)
deriving DecidableEq, Repr

/-- Primitive effects of the handler, recorded in program order. -/
inductive Action where
  | createT (tid : Nat) (opts : TransportOptions)
  | regHook (conn : Nat) (acts : List HookAction)
  | insertS (sid : String) (tid : Nat)
  | bindT (engine : Nat) (tid : Nat)
  | driveT (tid : Nat)
  | closeT (tid : Nat)
  | deleteS (sid : String)
deriving DecidableEq, Repr

/-- The module-level mutable state surrounding `app.post("/mcp")`:
the `sessions` map, plus instrumentation recording every transport ever
created (`created`), every successful `server.connect` call (`binds`),
every `transport.close()` invocation (`closedLog`), every registered
`res.on("close")` listener (`hooks`), every `transport.handleRequest`
call (`drives`), and the global effect trace. -/
structure MuxState where
  sessions : List (String × SessionRecord)
  nextTid : Nat
  created : List (Nat × TransportOptions)
  binds : List (Nat × Nat)
  closedLog : List Nat
  hooks : List (Nat × List HookAction)
  drives : List Nat
  trace : List Action
deriving DecidableEq, Repr

/-- The single module-level `McpServer` instance (`const server = new McpServer(...)`),
identified by a fixed engine id. -/
def serverEngine : Nat := 0

/-- The state at process start: empty `sessions` map, nothing created. -/
def initState : MuxState := ⟨[], 0, [], [], [], [], [], []⟩

/-- `sessions.get(sessionId)`. -/
def sessionsGet : List (String × SessionRecord) → String → Option SessionRecord
  | [], _ => none
  | p :: rest, k => if p.1 = k then some p.2 else sessionsGet rest k

/-- `sessions.set(sessionId, session)`: update in place if the key exists,
otherwise append (JS `Map` insertion order). -/
def sessionsSet : List (String × SessionRecord) → String → SessionRecord →
    List (String × SessionRecord)
  | [], k, v => [(k, v)]
  | p :: rest, k, v => if p.1 = k then (k, v) :: rest else p :: sessionsSet rest k v

/-- `sessions.delete(sessionId)`: remove the entry for the key. -/
def sessionsDelete : List (String × SessionRecord) → String →
    List (String × SessionRecord)
  | [], _ => []
  | p :: rest, k => if p.1 = k then rest else p :: sessionsDelete rest k

/-- `new StreamableHTTPServerTransport(opts)`: allocate a fresh transport id. -/
def newTransport (st : MuxState) (opts : TransportOptions) : MuxState × Nat :=
  ({ st with nextTid := st.nextTid + 1,
             created := st.created ++ [(st.nextTid, opts)],
             trace := st.trace ++ [.createT st.nextTid opts] }, st.nextTid)

/-- `res.on("close", cb)`: register a close listener on connection `conn`. -/
def onClose (st : MuxState) (conn : Nat) (acts : List HookAction) : MuxState :=
  { st with hooks := st.hooks ++ [(conn, acts)],
            trace := st.trace ++ [.regHook conn acts] }

/-- `sessions.set(sessionId, session)` as a state operation. -/
def insertSession (st : MuxState) (sid : String) (tid : Nat) : MuxState :=
  { st with sessions := sessionsSet st.sessions sid ⟨tid⟩,
            trace := st.trace ++ [.insertS sid tid] }

/-- The synchronous part of `server.connect(transport)`: on success the
module-level engine is attached to the transport; on failure nothing is
recorded and the awaiting handler will reject. -/
def connectCall (st : MuxState) (tid : Nat) (ok : Bool) : MuxState :=
  if ok then { st with binds := st.binds ++ [(serverEngine, tid)],
                       trace := st.trace ++ [.bindT serverEngine tid] }
  else st

/-- The call of `transport.handleRequest(req, res, req.body)`. -/
def driveCall (st : MuxState) (tid : Nat) : MuxState :=
  { st with drives := st.drives ++ [tid],
            trace := st.trace ++ [.driveT tid] }

/-- `transport.close()`: one more invocation of the close operation. -/
def closeTransportOp (st : MuxState) (tid : Nat) : MuxState :=
  { st with closedLog := st.closedLog ++ [tid],
            trace := st.trace ++ [.closeT tid] }

/-- `sessions.delete(sessionId)` as a state operation. -/
def deleteSessionOp (st : MuxState) (sid : String) : MuxState :=
  { st with sessions := sessionsDelete st.sessions sid,
            trace := st.trace ++ [.deleteS sid] }

/-- Execute one statement of a close listener. -/
def runHookAction (st : MuxState) : HookAction → MuxState
  | .closeTransport tid => closeTransportOp st tid
  | .deleteSession sid => deleteSessionOp st sid

/-- Execute the body of one close listener, statements in order. -/
def runHookActions (st : MuxState) (acts : List HookAction) : MuxState :=
  acts.foldl runHookAction st

/-- The `close` event firing on connection `conn`: every listener registered
for `conn` runs, in registration order (`res.on` keeps listeners registered,
so a second firing runs them again). -/
def fireClose (st : MuxState) (conn : Nat) : MuxState :=
  (st.hooks.filter (fun p => decide (p.1 = conn))).foldl (fun s p => runHookActions s p.2) st

/-- The outcome of one finished handler invocation. -/
inductive Outcome where
  | ok
  | connectError
  | driveError
deriving DecidableEq, Repr

/-- Whether the awaited `server.connect` and `transport.handleRequest`
promises of this request resolve or reject. -/
structure ReqEnv where
  connectOk : Bool
  driveOk : Bool
deriving DecidableEq, Repr

/-- Suspension points of the async handler.  `start` is before the first
synchronous segment; the `awaitConnect*` states are suspended on
`server.connect`; `awaitDrive` is suspended on `transport.handleRequest`. -/
inductive PC where
  | start
  | awaitConnectStateless (tid : Nat)
  | awaitConnectCreated (tid : Nat) (sid : String)
  | awaitDrive (tid : Nat)
  | done (r : Outcome)
deriving DecidableEq, Repr

/-- One in-flight invocation of the `app.post("/mcp")` handler:
its `req.query.sessionId`, its connection (the `res` object identity its
close listeners attach to), the fate of its awaited promises, and its
current suspension point. -/
structure Thread where
  q : Option String
  conn : Nat
  env : ReqEnv
  pc : PC
deriving DecidableEq, Repr

/-- One atomic step of the handler: the synchronous segment from the current
suspension point to the next one.  Direct translation of the source:

* `start`, `!sessionId` falsy: lines 826-839 — create a transport with
  `sessionIdGenerator: undefined`, register `res.on("close", () => transport.close())`,
  then call `server.connect(transport)` and suspend on it.
* `start`, truthy, `sessions.get` hit: lines 842 and 858 — call
  `session.transport.handleRequest` on the existing transport and suspend.
* `start`, truthy, miss: lines 843-850 — create a transport with
  `sessionIdGenerator: () => sessionId`, `sessions.set(sessionId, session)`,
  then call `server.connect(transport)` and suspend.
* resuming a rejected `server.connect`: the handler rejects; nothing further
  runs (in particular, in the created branch no close listener was registered).
* resuming a resolved `server.connect` in the created branch: lines 852-858 —
  register `res.on("close", () => { transport.close(); sessions.delete(sessionId); })`,
  then call `handleRequest` and suspend.
* resuming `handleRequest`: the handler finishes with its outcome. -/
def threadStep (st : MuxState) (t : Thread) : MuxState × Thread :=
  match t.pc with
  | .start =>
      if !(jsTruthy t.q) then
        let r1 := newTransport st ⟨none, true⟩
        let st2 := onClose r1.1 t.conn [.closeTransport r1.2]
        let st3 := connectCall st2 r1.2 t.env.connectOk
        (st3, { t with pc := .awaitConnectStateless r1.2 })
      else
        let sid := t.q.getD ""
        match sessionsGet st.sessions sid with
        | some session =>
            (driveCall st session.transport, { t with pc := .awaitDrive session.transport })
        | none =>
            let r1 := newTransport st ⟨some sid, true⟩
            let st2 := insertSession r1.1 sid r1.2
            let st3 := connectCall st2 r1.2 t.env.connectOk
            (st3, { t with pc := .awaitConnectCreated r1.2 sid })
  | .awaitConnectStateless tid =>
      if t.env.connectOk then
        (driveCall st tid, { t with pc := .awaitDrive tid })
      else
        (st, { t with pc := .done .connectError })
  | .awaitConnectCreated tid sid =>
      if t.env.connectOk then
        let st1 := onClose st t.conn [.closeTransport tid, .deleteSession sid]
        (driveCall st1 tid, { t with pc := .awaitDrive tid })
      else
        (st, { t with pc := .done .connectError })
  | .awaitDrive _tid =>
      (st, { t with pc := .done (if t.env.driveOk then .ok else .driveError) })
  | .done _r => (st, t)

/-- A fresh handler invocation for a request. -/
def threadInit (q : Option String) (conn : Nat) (env : ReqEnv) : Thread :=
  ⟨q, conn, env, .start⟩

/-- One whole handler invocation run in isolation: every path of the source
reaches `done` within three suspension segments, so three steps suffice
(steps on a finished thread are no-ops). -/
def handle (st : MuxState) (q : Option String) (conn : Nat) (env : ReqEnv) :
    MuxState × Thread :=
  threadStep (threadStep (threadStep st (threadInit q conn env)).1
      (threadStep st (threadInit q conn env)).2).1
    (threadStep (threadStep st (threadInit q conn env)).1
      (threadStep st (threadInit q conn env)).2).2

/-- Sequential processing of a list of requests all carrying `sessionId = sid`. -/
def handleSeq (st : MuxState) (sid : String) : List (Nat × ReqEnv) → MuxState
  | [] => st
  | r :: rs => handleSeq (handle st (some sid) r.1 r.2).1 sid rs

/-- The number of transports created with `sessionIdGenerator: () => sid`. -/
def createdFor (st : MuxState) (sid : String) : Nat :=
  (st.created.filter (fun p => decide (p.2.sessionIdGenerator = some sid))).length

/-- The number of registry entries for `sid`. -/
def entryCount (st : MuxState) (sid : String) : Nat :=
  (st.sessions.filter (fun p => decide (p.1 = sid))).length

/-- The keys of the `sessions` map are pairwise distinct (a `Map` property). -/
def keysNodup (st : MuxState) : Prop :=
  (st.sessions.map Prod.fst).Nodup

/-- Two concurrently executing handler invocations over the shared module state. -/
structure TwoThreads where
  st : MuxState
  t1 : Thread
  t2 : Thread
deriving DecidableEq, Repr

/-- Scheduler step: `true` steps the first thread, `false` the second. -/
def schedStep (s : TwoThreads) (pick : Bool) : TwoThreads :=
  if pick then ⟨(threadStep s.st s.t1).1, (threadStep s.st s.t1).2, s.t2⟩
  else ⟨(threadStep s.st s.t2).1, s.t1, (threadStep s.st s.t2).2⟩

/-- Run an interleaving of the two threads. -/
def runSched (s : TwoThreads) : List Bool → TwoThreads
  | [] => s
  | b :: bs => runSched (schedStep s b) bs

/-- States reachable from process start by handler steps (any in-flight
request, at any suspension point) and close-event firings. -/
inductive Reachable : MuxState → Prop where
  | init : Reachable initState
  | step : ∀ (st : MuxState) (t : Thread), Reachable st → Reachable (threadStep st t).1
  | close : ∀ (st : MuxState) (conn : Nat), Reachable st → Reachable (fireClose st conn)

/-! ### Map lemmas -/

theorem jsTruthy_some {sid : String} (h : sid ≠ "") : jsTruthy (some sid) = true := by
  simp [jsTruthy, h]

theorem sessionsGet_set_self (m : List (String × SessionRecord)) (k : String)
    (v : SessionRecord) : sessionsGet (sessionsSet m k v) k = some v := by
  induction m with
  | nil => simp [sessionsSet, sessionsGet]
  | cons p rest ih =>
      by_cases h : p.1 = k
      · simp [sessionsSet, sessionsGet, h]
      · simp [sessionsSet, sessionsGet, h, ih]

theorem sessionsGet_set_ne (m : List (String × SessionRecord)) {k k' : String}
    (v : SessionRecord) (h : k' ≠ k) :
    sessionsGet (sessionsSet m k v) k' = sessionsGet m k' := by
  induction m with
  | nil => simp [sessionsSet, sessionsGet, Ne.symm h]
  | cons p rest ih =>
      by_cases hp : p.1 = k
      · subst hp
        simp [sessionsSet, sessionsGet, Ne.symm h, h]
      · by_cases hp' : p.1 = k'
        · simp only [sessionsSet]
          rw [if_neg hp]
          simp [sessionsGet, hp']
        · simp [sessionsSet, sessionsGet, hp, hp', ih]

theorem sessionsSet_absent (m : List (String × SessionRecord)) {k : String}
    (v : SessionRecord) (h : sessionsGet m k = none) :
    sessionsSet m k v = m ++ [(k, v)] := by
  induction m with
  | nil => simp [sessionsSet]
  | cons p rest ih =>
      by_cases hp : p.1 = k
      · simp [sessionsGet, hp] at h
      · rw [sessionsGet, if_neg hp] at h
        simp [sessionsSet, hp, ih h]

theorem sessionsDelete_set_absent (m : List (String × SessionRecord)) {k : String}
    (v : SessionRecord) (h : sessionsGet m k = none) :
    sessionsDelete (sessionsSet m k v) k = m := by
  induction m with
  | nil => simp [sessionsSet, sessionsDelete]
  | cons p rest ih =>
      by_cases hp : p.1 = k
      · simp [sessionsGet, hp] at h
      · rw [sessionsGet, if_neg hp] at h
        simp [sessionsSet, sessionsDelete, hp, ih h]

theorem sessionsGet_absent_forall {m : List (String × SessionRecord)} {k : String}
    (h : sessionsGet m k = none) : ∀ p ∈ m, p.1 ≠ k := by
  induction m with
  | nil => simp
  | cons p rest ih =>
      by_cases hp : p.1 = k
      · simp [sessionsGet, hp] at h
      · rw [sessionsGet, if_neg hp] at h
        intro q hq
        rcases List.mem_cons.mp hq with rfl | hq
        · exact hp
        · exact ih h q hq

theorem keysNodup_set {m : List (String × SessionRecord)} {k : String}
    (v : SessionRecord) (hn : (m.map Prod.fst).Nodup) (h : sessionsGet m k = none) :
    ((sessionsSet m k v).map Prod.fst).Nodup := by
  rw [sessionsSet_absent m v h]
  simp only [List.map_append, List.map_cons, List.map_nil]
  rw [List.nodup_append]
  refine ⟨hn, List.nodup_singleton k, ?_⟩
  intro a ha hb
  simp only [List.mem_singleton] at hb
  subst hb
  rcases List.mem_map.mp ha with ⟨p, hp, rfl⟩
  exact sessionsGet_absent_forall h p hp rfl

theorem sessionsDelete_sublist (m : List (String × SessionRecord)) (k : String) :
    List.Sublist (sessionsDelete m k) m := by
  induction m with
  | nil => simp [sessionsDelete]
  | cons p rest ih =>
      by_cases hp : p.1 = k
      · simp [sessionsDelete, hp]
      · simpa [sessionsDelete, hp] using ih.cons₂ p

theorem entryCount_of_get {m : List (String × SessionRecord)} {k : String}
    {r : SessionRecord} (hn : (m.map Prod.fst).Nodup) (h : sessionsGet m k = some r) :
    (m.filter (fun p => decide (p.1 = k))).length = 1 := by
  induction m with
  | nil => simp [sessionsGet] at h
  | cons p rest ih =>
      simp only [List.map_cons, List.nodup_cons] at hn
      by_cases hp : p.1 = k
      · subst hp
        have hnil : ∀ q ∈ rest, ¬ (decide (q.1 = p.1)) = true := by
          intro q hq hbq
          exact hn.1 (List.mem_map.mpr ⟨q, hq, by simpa using hbq⟩)
        simp [List.filter_cons, List.filter_eq_nil_iff.mpr hnil]
      · rw [sessionsGet, if_neg hp] at h
        simp [List.filter_cons, hp, ih hn.2 h]

/-! ### Branch equations for the handler -/

theorem handle_stateless_ok (st : MuxState) (q : Option String) (conn : Nat) (d : Bool)
    (hq : jsTruthy q = false) :
    handle st q conn ⟨true, d⟩ =
      ({ st with nextTid := st.nextTid + 1,
                 created := st.created ++ [(st.nextTid, ⟨none, true⟩)],
                 binds := st.binds ++ [(serverEngine, st.nextTid)],
                 hooks := st.hooks ++ [(conn, [.closeTransport st.nextTid])],
                 drives := st.drives ++ [st.nextTid],
                 trace := st.trace ++ [.createT st.nextTid ⟨none, true⟩,
                                       .regHook conn [.closeTransport st.nextTid],
                                       .bindT serverEngine st.nextTid,
                                       .driveT st.nextTid] },
       ⟨q, conn, ⟨true, d⟩, .done (if d then .ok else .driveError)⟩) := by
  simp [handle, threadInit, threadStep, hq, newTransport, onClose, connectCall, driveCall]

theorem handle_stateless_fail (st : MuxState) (q : Option String) (conn : Nat) (d : Bool)
    (hq : jsTruthy q = false) :
    handle st q conn ⟨false, d⟩ =
      ({ st with nextTid := st.nextTid + 1,
                 created := st.created ++ [(st.nextTid, ⟨none, true⟩)],
                 hooks := st.hooks ++ [(conn, [.closeTransport st.nextTid])],
                 trace := st.trace ++ [.createT st.nextTid ⟨none, true⟩,
                                       .regHook conn [.closeTransport st.nextTid]] },
       ⟨q, conn, ⟨false, d⟩, .done .connectError⟩) := by
  simp [handle, threadInit, threadStep, hq, newTransport, onClose, connectCall]

theorem handle_present (st : MuxState) {sid : String} (conn : Nat) (env : ReqEnv)
    {r : SessionRecord} (hs : sid ≠ "") (h : sessionsGet st.sessions sid = some r) :
    handle st (some sid) conn env =
      ({ st with drives := st.drives ++ [r.transport],
                 trace := st.trace ++ [.driveT r.transport] },
       ⟨some sid, conn, env, .done (if env.driveOk then .ok else .driveError)⟩) := by
  simp [handle, threadInit, threadStep, jsTruthy_some hs, h, driveCall]

theorem handle_created_ok (st : MuxState) {sid : String} (conn : Nat) (d : Bool)
    (hs : sid ≠ "") (h : sessionsGet st.sessions sid = none) :
    handle st (some sid) conn ⟨true, d⟩ =
      ({ st with sessions := sessionsSet st.sessions sid ⟨st.nextTid⟩,
                 nextTid := st.nextTid + 1,
                 created := st.created ++ [(st.nextTid, ⟨some sid, true⟩)],
                 binds := st.binds ++ [(serverEngine, st.nextTid)],
                 hooks := st.hooks ++ [(conn, [.closeTransport st.nextTid,
                                               .deleteSession sid])],
                 drives := st.drives ++ [st.nextTid],
                 trace := st.trace ++ [.createT st.nextTid ⟨some sid, true⟩,
                                       .insertS sid st.nextTid,
                                       .bindT serverEngine st.nextTid,
                                       .regHook conn [.closeTransport st.nextTid,
                                                      .deleteSession sid],
                                       .driveT st.nextTid] },
       ⟨some sid, conn, ⟨true, d⟩, .done (if d then .ok else .driveError)⟩) := by
  simp [handle, threadInit, threadStep, jsTruthy_some hs, h, newTransport, insertSession,
        onClose, connectCall, driveCall]

theorem handle_created_fail (st : MuxState) {sid : String} (conn : Nat) (d : Bool)
    (hs : sid ≠ "") (h : sessionsGet st.sessions sid = none) :
    handle st (some sid) conn ⟨false, d⟩ =
      ({ st with sessions := sessionsSet st.sessions sid ⟨st.nextTid⟩,
                 nextTid := st.nextTid + 1,
                 created := st.created ++ [(st.nextTid, ⟨some sid, true⟩)],
                 trace := st.trace ++ [.createT st.nextTid ⟨some sid, true⟩,
                                       .insertS sid st.nextTid] },
       ⟨some sid, conn, ⟨false, d⟩, .done .connectError⟩) := by
  simp [handle, threadInit, threadStep, jsTruthy_some hs, h, newTransport, insertSession,
        connectCall]

theorem threadStep_start_absent_ok (st : MuxState) {sid : String} (conn : Nat) (d : Bool)
    (hs : sid ≠ "") (h : sessionsGet st.sessions sid = none) :
    threadStep st ⟨some sid, conn, ⟨true, d⟩, .start⟩ =
      ({ st with sessions := sessionsSet st.sessions sid ⟨st.nextTid⟩,
                 nextTid := st.nextTid + 1,
                 created := st.created ++ [(st.nextTid, ⟨some sid, true⟩)],
                 binds := st.binds ++ [(serverEngine, st.nextTid)],
                 trace := st.trace ++ [.createT st.nextTid ⟨some sid, true⟩,
                                       .insertS sid st.nextTid,
                                       .bindT serverEngine st.nextTid] },
       ⟨some sid, conn, ⟨true, d⟩, .awaitConnectCreated st.nextTid sid⟩) := by
  simp [threadStep, jsTruthy_some hs, h, newTransport, insertSession, connectCall]

theorem threadStep_start_present (st : MuxState) {sid : String} (conn : Nat) (env : ReqEnv)
    {r : SessionRecord} (hs : sid ≠ "") (h : sessionsGet st.sessions sid = some r) :
    threadStep st ⟨some sid, conn, env, .start⟩ =
      ({ st with drives := st.drives ++ [r.transport],
                 trace := st.trace ++ [.driveT r.transport] },
       ⟨some sid, conn, env, .awaitDrive r.transport⟩) := by
  simp [threadStep, jsTruthy_some hs, h, driveCall]

/-! ### Close-event lemmas -/

theorem runHookActions_close_delete (st : MuxState) (tid : Nat) (sid : String) :
    runHookActions st [.closeTransport tid, .deleteSession sid] =
      { st with sessions := sessionsDelete st.sessions sid,
                closedLog := st.closedLog ++ [tid],
                trace := st.trace ++ [.closeT tid, .deleteS sid] } := by
  simp [runHookActions, runHookAction, closeTransportOp, deleteSessionOp]

theorem runHookActions_close_only (st : MuxState) (tid : Nat) :
    runHookActions st [.closeTransport tid] =
      { st with closedLog := st.closedLog ++ [tid],
                trace := st.trace ++ [.closeT tid] } := by
  simp [runHookActions, runHookAction, closeTransportOp]

theorem filter_hooks_append (pri : List (Nat × List HookAction)) (conn : Nat)
    (acts : List HookAction) (h : ∀ p ∈ pri, p.1 ≠ conn) :
    (pri ++ [(conn, acts)]).filter (fun p => decide (p.1 = conn)) = [(conn, acts)] := by
  rw [List.filter_append]
  have hnil : pri.filter (fun p => decide (p.1 = conn)) = [] :=
    List.filter_eq_nil_iff.mpr (by intro a ha; simpa using h a ha)
  simp [hnil]

theorem fireClose_single (st : MuxState) (conn : Nat) (acts : List HookAction)
    (h : st.hooks.filter (fun p => decide (p.1 = conn)) = [(conn, acts)]) :
    fireClose st conn = runHookActions st acts := by
  simp [fireClose, h]

theorem runHookAction_frame (st : MuxState) (a : HookAction) :
    (runHookAction st a).hooks = st.hooks ∧
    (runHookAction st a).nextTid = st.nextTid ∧
    (runHookAction st a).created = st.created ∧
    (runHookAction st a).binds = st.binds ∧
    (runHookAction st a).drives = st.drives := by
  cases a <;> simp [runHookAction, closeTransportOp, deleteSessionOp]

theorem runHookActions_frame (acts : List HookAction) (st : MuxState) :
    (runHookActions st acts).hooks = st.hooks ∧
    (runHookActions st acts).nextTid = st.nextTid ∧
    (runHookActions st acts).created = st.created ∧
    (runHookActions st acts).binds = st.binds ∧
    (runHookActions st acts).drives = st.drives := by
  induction acts generalizing st with
  | nil => simp [runHookActions]
  | cons a rest ih =>
      have h1 := runHookAction_frame st a
      have h2 := ih (runHookAction st a)
      simp only [runHookActions, List.foldl_cons] at h2 ⊢
      exact ⟨h2.1.trans h1.1, (h2.2.1).trans h1.2.1, (h2.2.2.1).trans h1.2.2.1,
             (h2.2.2.2.1).trans h1.2.2.2.1, (h2.2.2.2.2).trans h1.2.2.2.2⟩

theorem runHookActions_sessions_sublist (acts : List HookAction) (st : MuxState) :
    List.Sublist (runHookActions st acts).sessions st.sessions := by
  induction acts generalizing st with
  | nil => simp [runHookActions]
  | cons a rest ih =>
      have h2 := ih (runHookAction st a)
      simp only [runHookActions, List.foldl_cons] at h2 ⊢
      refine h2.trans ?_
      cases a <;> simp [runHookAction, closeTransportOp, deleteSessionOp,
        sessionsDelete_sublist]

theorem foldl_hooks_sessions_sublist (hs : List (Nat × List HookAction)) (st : MuxState) :
    List.Sublist ((hs.foldl (fun s p => runHookActions s p.2) st).sessions) st.sessions := by
  induction hs generalizing st with
  | nil => simp
  | cons h rest ih =>
      simp only [List.foldl_cons]
      exact (ih (runHookActions st h.2)).trans (runHookActions_sessions_sublist h.2 st)

theorem fireClose_sessions_sublist (st : MuxState) (conn : Nat) :
    List.Sublist (fireClose st conn).sessions st.sessions :=
  foldl_hooks_sessions_sublist _ st

/-! ### Structural case analysis of one handler step -/

theorem threadStep_state_cases (st : MuxState) (t : Thread) :
    ((threadStep st t).1.sessions = st.sessions ∧ (threadStep st t).1.created = st.created) ∨
    ((threadStep st t).1.sessions = st.sessions ∧
      (threadStep st t).1.created = st.created ++ [(st.nextTid, ⟨none, true⟩)]) ∨
    (∃ sid, t.pc = .start ∧ t.q = some sid ∧ sid ≠ "" ∧
      sessionsGet st.sessions sid = none ∧
      (threadStep st t).1.sessions = sessionsSet st.sessions sid ⟨st.nextTid⟩ ∧
      (threadStep st t).1.created = st.created ++ [(st.nextTid, ⟨some sid, true⟩)]) := by
  rcases t with ⟨q, conn, ⟨c, d⟩, pc⟩
  cases pc with
  | start =>
      by_cases hq : jsTruthy q = false
      · right; left
        cases c <;> simp [threadStep, hq, newTransport, onClose, connectCall]
      · rcases q with _ | s
        · simp [jsTruthy] at hq
        · have hs : s ≠ "" := by
            intro hempty
            subst hempty
            simp [jsTruthy] at hq
          cases hg : sessionsGet st.sessions s with
          | some r =>
              left
              simp [threadStep, jsTruthy_some hs, hg, driveCall]
          | none =>
              right; right
              refine ⟨s, rfl, rfl, hs, hg, ?_⟩
              cases c <;>
                simp [threadStep, jsTruthy_some hs, hg, newTransport, insertSession,
                  connectCall]
  | awaitConnectStateless tid =>
      left
      cases c <;> simp [threadStep, driveCall]
  | awaitConnectCreated tid sid =>
      left
      cases c <;> simp [threadStep, onClose, driveCall]
  | awaitDrive tid =>
      left
      simp [threadStep]
  | done r =>
      left
      simp [threadStep]

theorem threadStep_get_mono {st : MuxState} {sid : String} {r : SessionRecord}
    (t : Thread) (h : sessionsGet st.sessions sid = some r) :
    sessionsGet (threadStep st t).1.sessions sid = some r := by
  rcases threadStep_state_cases st t with ⟨hs, _⟩ | ⟨hs, _⟩ | ⟨sid2, _, _, _, habs, hs, _⟩
  · rw [hs]; exact h
  · rw [hs]; exact h
  · rw [hs]
    have hne : sid ≠ sid2 := by
      intro hcontra
      subst hcontra
      rw [h] at habs
      cases habs
    rw [sessionsGet_set_ne _ _ hne]
    exact h

theorem threadStep_created_inv {st : MuxState} {sid : String} (t : Thread)
    (h : createdFor st sid = if (sessionsGet st.sessions sid).isSome then 1 else 0) :
    createdFor (threadStep st t).1 sid =
      if (sessionsGet (threadStep st t).1.sessions sid).isSome then 1 else 0 := by
  rcases threadStep_state_cases st t with ⟨hs, hc⟩ | ⟨hs, hc⟩ | ⟨sid2, _, _, _, habs, hs, hc⟩
  · rw [createdFor, hc, hs]
    exact h
  · rw [createdFor, hc, List.filter_append, hs]
    simpa [createdFor] using h
  · rw [createdFor, hc, List.filter_append, hs]
    by_cases hev : sid2 = sid
    · subst hev
      rw [sessionsGet_set_self]
      rw [habs] at h
      simp only [Option.isSome_none, Bool.false_eq_true, if_false] at h
      simp [createdFor] at h
      simpa using h
    · rw [sessionsGet_set_ne _ _ (Ne.symm hev)]
      simpa [createdFor, hev] using h

theorem threadStep_keysNodup {st : MuxState} (t : Thread) (h : keysNodup st) :
    keysNodup (threadStep st t).1 := by
  rcases threadStep_state_cases st t with ⟨hs, _⟩ | ⟨hs, _⟩ | ⟨sid2, _, _, _, habs, hs, _⟩
  · rw [keysNodup, hs]; exact h
  · rw [keysNodup, hs]; exact h
  · rw [keysNodup, hs]
    exact keysNodup_set _ h habs

theorem fireClose_keysNodup {st : MuxState} (conn : Nat) (h : keysNodup st) :
    keysNodup (fireClose st conn) :=
  ((fireClose_sessions_sublist st conn).map Prod.fst).nodup h

theorem reachable_keysNodup {st : MuxState} (h : Reachable st) : keysNodup st := by
  induction h with
  | init => simp [keysNodup, initState]
  | step st t _ ih => exact threadStep_keysNodup t ih
  | close st conn _ ih => exact fireClose_keysNodup conn ih

/-! ### Whole-request and interleaving lemmas -/

theorem handle_get_mono {st : MuxState} {sid : String} {r : SessionRecord}
    (q : Option String) (conn : Nat) (env : ReqEnv)
    (h : sessionsGet st.sessions sid = some r) :
    sessionsGet (handle st q conn env).1.sessions sid = some r :=
  threadStep_get_mono _ (threadStep_get_mono _ (threadStep_get_mono _ h))

theorem handle_created_inv {st : MuxState} {sid : String}
    (q : Option String) (conn : Nat) (env : ReqEnv)
    (h : createdFor st sid = if (sessionsGet st.sessions sid).isSome then 1 else 0) :
    createdFor (handle st q conn env).1 sid =
      if (sessionsGet (handle st q conn env).1.sessions sid).isSome then 1 else 0 :=
  threadStep_created_inv _ (threadStep_created_inv _ (threadStep_created_inv _ h))

theorem handle_makes_present (st : MuxState) {sid : String} (conn : Nat) (env : ReqEnv)
    (hs : sid ≠ "") :
    ∃ r2, sessionsGet (handle st (some sid) conn env).1.sessions sid = some r2 := by
  cases hg : sessionsGet st.sessions sid with
  | some r => exact ⟨r, handle_get_mono _ conn env hg⟩
  | none =>
      rcases env with ⟨c, d⟩
      cases c
      · rw [handle_created_fail st conn d hs hg]
        exact ⟨⟨st.nextTid⟩, sessionsGet_set_self _ _ _⟩
      · rw [handle_created_ok st conn d hs hg]
        exact ⟨⟨st.nextTid⟩, sessionsGet_set_self _ _ _⟩

theorem handleSeq_inv {sid : String} (reqs : List (Nat × ReqEnv)) (st : MuxState)
    (h : createdFor st sid = if (sessionsGet st.sessions sid).isSome then 1 else 0) :
    createdFor (handleSeq st sid reqs) sid =
      if (sessionsGet (handleSeq st sid reqs).sessions sid).isSome then 1 else 0 := by
  induction reqs generalizing st with
  | nil => simpa [handleSeq] using h
  | cons a rest ih => exact ih _ (handle_created_inv _ _ _ h)

theorem handleSeq_present {sid : String} {r : SessionRecord}
    (reqs : List (Nat × ReqEnv)) (st : MuxState)
    (h : sessionsGet st.sessions sid = some r) :
    ∃ r2, sessionsGet (handleSeq st sid reqs).sessions sid = some r2 := by
  induction reqs generalizing st r with
  | nil => exact ⟨r, h⟩
  | cons a rest ih => exact ih _ (handle_get_mono _ _ _ h)

theorem threadStep_start_absent_sessions (st : MuxState) {sid : String} (conn : Nat)
    (env : ReqEnv) (hs : sid ≠ "") (habs : sessionsGet st.sessions sid = none) :
    (threadStep st ⟨some sid, conn, env, .start⟩).1.sessions =
      sessionsSet st.sessions sid ⟨st.nextTid⟩ := by
  rcases env with ⟨c, d⟩
  cases c <;>
    simp [threadStep, jsTruthy_some hs, habs, newTransport, insertSession, connectCall]

theorem threadStep_start_makes_present (st : MuxState) {sid : String} (conn : Nat)
    (env : ReqEnv) (hs : sid ≠ "") :
    ∃ r2, sessionsGet (threadStep st ⟨some sid, conn, env, .start⟩).1.sessions sid
      = some r2 := by
  cases hg : sessionsGet st.sessions sid with
  | some r => exact ⟨r, threadStep_get_mono _ hg⟩
  | none =>
      rw [threadStep_start_absent_sessions st conn env hs hg]
      exact ⟨⟨st.nextTid⟩, sessionsGet_set_self _ _ _⟩

theorem runSched_inv {sid : String} (sched : List Bool) (s : TwoThreads)
    (h : createdFor s.st sid = if (sessionsGet s.st.sessions sid).isSome then 1 else 0) :
    createdFor (runSched s sched).st sid =
      if (sessionsGet (runSched s sched).st.sessions sid).isSome then 1 else 0 := by
  induction sched generalizing s with
  | nil => simpa [runSched] using h
  | cons b rest ih =>
      refine ih _ ?_
      cases b
      · exact threadStep_created_inv _ h
      · exact threadStep_created_inv _ h

theorem runSched_present_mono {sid : String} {r : SessionRecord} (sched : List Bool)
    (s : TwoThreads) (h : sessionsGet s.st.sessions sid = some r) :
    ∃ r2, sessionsGet (runSched s sched).st.sessions sid = some r2 := by
  induction sched generalizing s r with
  | nil => exact ⟨r, h⟩
  | cons b rest ih =>
      cases b
      · exact ih _ (threadStep_get_mono _ h)
      · exact ih _ (threadStep_get_mono _ h)

/-! ### Claim theorems -/

/-- C10: a request whose `sessionId` query parameter is present but equal to
the empty string is treated exactly like a request with no `sessionId`: the
branch tests the parameter for JS falsiness (`if (!sessionId)`), so the
request takes the stateless path, the resulting multiplexer state is
identical to that of a parameter-less request, and the Session Registry is
unchanged. -/
theorem mux_C10 (st : MuxState) (conn : Nat) (env : ReqEnv) :
    (handle st (some "") conn env).1 = (handle st none conn env).1 ∧
    ((handle st (some "") conn env).2).pc = ((handle st none conn env).2).pc ∧
    (handle st (some "") conn env).1.sessions = st.sessions := by
  rcases env with ⟨c, d⟩
  have h1 : jsTruthy (some "") = false := by simp [jsTruthy]
  cases c
  · rw [handle_stateless_fail st (some "") conn d h1, handle_stateless_fail st none conn d rfl]
    exact ⟨rfl, rfl, rfl⟩
  · rw [handle_stateless_ok st (some "") conn d h1, handle_stateless_ok st none conn d rfl]
    exact ⟨rfl, rfl, rfl⟩

/-- C8: a stateless request (no `sessionId`) creates a disposable transport
with no session identity of its own (`sessionIdGenerator: undefined`),
registers a close hook on the connection that closes exactly that transport
(the hook is registered before `server.connect`, so release is guaranteed
for every outcome of connect and of the drive step), and adds no entry to
the Session Registry: `sessions` is unchanged, and firing the connection's
close event invokes the transport's close operation. -/
theorem mux_C8 (st : MuxState) (conn : Nat) (env : ReqEnv)
    (hc : ∀ p ∈ st.hooks, p.1 ≠ conn) :
    (handle st none conn env).1.sessions = st.sessions ∧
    (handle st none conn env).1.created = st.created ++ [(st.nextTid, ⟨none, true⟩)] ∧
    (handle st none conn env).1.hooks
      = st.hooks ++ [(conn, [.closeTransport st.nextTid])] ∧
    (fireClose (handle st none conn env).1 conn).closedLog
      = (handle st none conn env).1.closedLog ++ [st.nextTid] := by
  rcases env with ⟨c, d⟩
  cases c
  · rw [handle_stateless_fail st none conn d rfl]
    refine ⟨rfl, rfl, rfl, ?_⟩
    rw [fireClose_single _ conn [.closeTransport st.nextTid]
        (filter_hooks_append st.hooks conn _ hc), runHookActions_close_only]
  · rw [handle_stateless_ok st none conn d rfl]
    refine ⟨rfl, rfl, rfl, ?_⟩
    rw [fireClose_single _ conn [.closeTransport st.nextTid]
        (filter_hooks_append st.hooks conn _ hc), runHookActions_close_only]

/-- C8 witness: at process start the claim's hypothesis (no close listener
registered yet for the connection) holds, and a stateless request leaves the
registry unchanged. -/
theorem mux_C8_witness :
    (∀ p ∈ initState.hooks, p.1 ≠ 0) ∧
    (handle initState none 0 ⟨true, true⟩).1.sessions = initState.sessions :=
  ⟨by simp [initState], (mux_C8 initState 0 ⟨true, true⟩ (by simp [initState])).1⟩

/-- C5 counterexample: two distinct stateless requests are bound to the SAME
Protocol Engine instance — the module-level `server` (`serverEngine`) — so
the claim that a fresh engine instance is bound per stateless request and
that distinct stateless requests never share one engine instance is false. -/
theorem mux_C5_counterexample :
    ((handle (handle initState none 0 ⟨true, true⟩).1 none 1 ⟨true, true⟩).1.binds
      = [(serverEngine, 0), (serverEngine, 1)]) ∧
    ¬ (((handle (handle initState none 0 ⟨true, true⟩).1 none 1
        ⟨true, true⟩).1.binds.map Prod.fst).Nodup) := by
  constructor
  · rfl
  · decide

/-- C5 (amended): for every stateless request a fresh transport is created,
but the engine bound to it is the single module-level `server` instance:
distinct stateless requests get distinct transports while sharing the one
global engine instance. -/
theorem mux_C5_amended (st : MuxState) (conn conn2 : Nat) (d d2 : Bool) :
    (handle st none conn ⟨true, d⟩).1.binds
      = st.binds ++ [(serverEngine, st.nextTid)] ∧
    (handle (handle st none conn ⟨true, d⟩).1 none conn2 ⟨true, d2⟩).1.binds
      = st.binds ++ [(serverEngine, st.nextTid), (serverEngine, st.nextTid + 1)] ∧
    st.nextTid ≠ st.nextTid + 1 := by
  rw [handle_stateless_ok st none conn d rfl]
  rw [handle_stateless_ok _ none conn2 d2 rfl]
  refine ⟨rfl, ?_, by omega⟩
  simp

/-- C4 counterexample: when `server.connect` rejects during stateful session
creation (input: fresh `sessionId` "abc", connect failure), the
partially-created Session is NOT removed from the registry, its transport is
never closed, and no close hook was registered — contradicting the claimed
rollback. -/
theorem mux_C4_counterexample :
    sessionsGet (handle initState (some "abc") 0 ⟨false, true⟩).1.sessions "abc"
      = some ⟨0⟩ ∧
    ¬ (sessionsGet (handle initState (some "abc") 0 ⟨false, true⟩).1.sessions "abc"
      = none) ∧
    (handle initState (some "abc") 0 ⟨false, true⟩).1.closedLog = [] ∧
    (handle initState (some "abc") 0 ⟨false, true⟩).1.hooks = [] := by
  refine ⟨by decide, by decide, by decide, by decide⟩

/-- C4 (amended): if binding the Protocol Engine fails during stateful
session creation, the failure is surfaced as that request's error outcome,
but the partially-created Session REMAINS in the registry, its transport is
not closed, no engine binding is recorded, and no close hook is registered —
the half-initialized entry is leaked rather than rolled back. -/
theorem mux_C4_amended (st : MuxState) {sid : String} (conn : Nat) (d : Bool)
    (hs : sid ≠ "") (h : sessionsGet st.sessions sid = none) :
    ((handle st (some sid) conn ⟨false, d⟩).2).pc = .done .connectError ∧
    sessionsGet (handle st (some sid) conn ⟨false, d⟩).1.sessions sid
      = some ⟨st.nextTid⟩ ∧
    (handle st (some sid) conn ⟨false, d⟩).1.closedLog = st.closedLog ∧
    (handle st (some sid) conn ⟨false, d⟩).1.hooks = st.hooks ∧
    (handle st (some sid) conn ⟨false, d⟩).1.binds = st.binds := by
  rw [handle_created_fail st conn d hs h]
  exact ⟨rfl, sessionsGet_set_self _ _ _, rfl, rfl, rfl⟩

/-- C4 witness: the amended claim instantiated at process start with
`sessionId` "abc" and a failing connect. -/
theorem mux_C4_witness :
    ("abc" ≠ "") ∧
    ((handle initState (some "abc") 0 ⟨false, true⟩).2).pc = .done .connectError :=
  ⟨by decide, (mux_C4_amended initState 0 true (by decide) (by decide)).1⟩

/-- C2: a request whose `sessionId` is present in the Session Registry reuses
the existing Session's transport unchanged — no transport is created, the
engine is not rebound, no hook is added, the registry (with unique keys)
still holds exactly one entry for that `sessionId`, and the existing
transport is the one driven; moreover, over any nonempty sequence of
requests sharing one `sessionId` (starting from a state where the id is
fresh), exactly one transport is created for that id. -/
theorem mux_C2 :
    (∀ (st : MuxState) (sid : String) (conn : Nat) (env : ReqEnv) (r : SessionRecord),
      sid ≠ "" → keysNodup st → sessionsGet st.sessions sid = some r →
        (handle st (some sid) conn env).1.sessions = st.sessions ∧
        (handle st (some sid) conn env).1.created = st.created ∧
        (handle st (some sid) conn env).1.binds = st.binds ∧
        (handle st (some sid) conn env).1.nextTid = st.nextTid ∧
        (handle st (some sid) conn env).1.hooks = st.hooks ∧
        (handle st (some sid) conn env).1.drives = st.drives ++ [r.transport] ∧
        entryCount (handle st (some sid) conn env).1 sid = 1) ∧
    (∀ (st : MuxState) (sid : String) (reqs : List (Nat × ReqEnv)),
      sid ≠ "" → sessionsGet st.sessions sid = none → createdFor st sid = 0 →
      reqs ≠ [] → createdFor (handleSeq st sid reqs) sid = 1) := by
  constructor
  · intro st sid conn env r hs hn h
    rw [handle_present st conn env hs h]
    refine ⟨rfl, rfl, rfl, rfl, rfl, rfl, ?_⟩
    exact entryCount_of_get hn h
  · intro st sid reqs hs habs hc0 hne
    rcases reqs with _ | ⟨a, rest⟩
    · exact absurd rfl hne
    · have hinv0 : createdFor st sid =
          if (sessionsGet st.sessions sid).isSome then 1 else 0 := by
        rw [habs, hc0]
        simp
      have hpres1 := handle_makes_present st a.1 a.2 hs
      rcases hpres1 with ⟨r1, hr1⟩
      rcases handleSeq_present rest _ hr1 with ⟨r2, hr2⟩
      have hinv := handleSeq_inv (a :: rest) st hinv0
      simp only [handleSeq] at hinv ⊢
      rw [hinv]
      simp [hr2]

/-- C2 witness: a second request for "abc" after the creating request reuses
the transport and leaves the registry unchanged; one transport was created. -/
theorem mux_C2_witness :
    ((handle (handle initState (some "abc") 0 ⟨true, true⟩).1 (some "abc") 1
        ⟨true, true⟩).1.created
      = (handle initState (some "abc") 0 ⟨true, true⟩).1.created) ∧
    createdFor (handleSeq initState "abc" [(0, ⟨true, true⟩), (1, ⟨true, true⟩)]) "abc"
      = 1 :=
  ⟨((mux_C2.1 (handle initState (some "abc") 0 ⟨true, true⟩).1 "abc" 1 ⟨true, true⟩
      ⟨0⟩ (by decide)
      (show ((handle initState (some "abc") 0
        ⟨true, true⟩).1.sessions.map Prod.fst).Nodup by decide)
      (by decide)).2.1),
   mux_C2.2 initState "abc" [(0, ⟨true, true⟩), (1, ⟨true, true⟩)] (by decide)
     (by decide) (by decide) (by decide)⟩

/-- C6: a failure while driving a transport (the `handleRequest` promise
rejects, e.g. on a malformed body) is surfaced as that request's error
outcome and does not tear down the stateful session: the registry entry, the
created transports, the close log, and the hooks are unchanged, and the next
well-formed request for the same `sessionId` is served by the very same
transport. -/
theorem mux_C6 (st : MuxState) {sid : String} (conn conn2 : Nat) (cOk cOk2 : Bool)
    (r : SessionRecord) (hs : sid ≠ "") (h : sessionsGet st.sessions sid = some r) :
    ((handle st (some sid) conn ⟨cOk, false⟩).2).pc = .done .driveError ∧
    (handle st (some sid) conn ⟨cOk, false⟩).1.sessions = st.sessions ∧
    (handle st (some sid) conn ⟨cOk, false⟩).1.closedLog = st.closedLog ∧
    (handle st (some sid) conn ⟨cOk, false⟩).1.created = st.created ∧
    (handle st (some sid) conn ⟨cOk, false⟩).1.hooks = st.hooks ∧
    ((handle (handle st (some sid) conn ⟨cOk, false⟩).1 (some sid) conn2
        ⟨cOk2, true⟩).2).pc = .done .ok ∧
    (handle (handle st (some sid) conn ⟨cOk, false⟩).1 (some sid) conn2
        ⟨cOk2, true⟩).1.drives = st.drives ++ [r.transport, r.transport] := by
  rw [handle_present st conn ⟨cOk, false⟩ hs h]
  have h2 : sessionsGet ({ st with
      drives := st.drives ++ [r.transport],
      trace := st.trace ++ [.driveT r.transport] } : MuxState).sessions sid = some r := h
  rw [handle_present _ conn2 ⟨cOk2, true⟩ hs h2]
  refine ⟨rfl, rfl, rfl, rfl, rfl, rfl, ?_⟩
  simp

/-- C6 witness: a malformed request against the existing session "abc"
errors while the registry entry survives, and the next request succeeds on
the same transport. -/
theorem mux_C6_witness :
    ("abc" ≠ "") ∧
    ((handle (handle initState (some "abc") 0 ⟨true, true⟩).1 (some "abc") 1
        ⟨true, false⟩).2).pc = .done .driveError :=
  ⟨by decide,
   (mux_C6 (handle initState (some "abc") 0 ⟨true, true⟩).1 1 2 true true ⟨0⟩
     (by decide) (by decide)).1⟩

/-- C7: in the stateful creation path the new Session is inserted into the
registry strictly before the engine is bound — in the effect trace of the
first synchronous segment the `insertS` action precedes the `bindT` action —
and at the first suspension point (binding not yet complete) the entry is
already present, so a concurrent request for the same `sessionId` stepping
at that point creates no second transport and is routed to the in-progress
session's transport. -/
theorem mux_C7 (st : MuxState) {sid : String} (conn conn2 : Nat) (d : Bool)
    (env2 : ReqEnv) (hs : sid ≠ "") (habs : sessionsGet st.sessions sid = none) :
    (threadStep st ⟨some sid, conn, ⟨true, d⟩, .start⟩).1.trace
      = st.trace ++ [.createT st.nextTid ⟨some sid, true⟩, .insertS sid st.nextTid,
                     .bindT serverEngine st.nextTid] ∧
    sessionsGet (threadStep st ⟨some sid, conn, ⟨true, d⟩, .start⟩).1.sessions sid
      = some ⟨st.nextTid⟩ ∧
    (threadStep (threadStep st ⟨some sid, conn, ⟨true, d⟩, .start⟩).1
        ⟨some sid, conn2, env2, .start⟩).1.created
      = (threadStep st ⟨some sid, conn, ⟨true, d⟩, .start⟩).1.created ∧
    ((threadStep (threadStep st ⟨some sid, conn, ⟨true, d⟩, .start⟩).1
        ⟨some sid, conn2, env2, .start⟩).2).pc = .awaitDrive st.nextTid := by
  rw [threadStep_start_absent_ok st conn d hs habs]
  have hget : sessionsGet ({ st with
      sessions := sessionsSet st.sessions sid ⟨st.nextTid⟩,
      nextTid := st.nextTid + 1,
      created := st.created ++ [(st.nextTid, ⟨some sid, true⟩)],
      binds := st.binds ++ [(serverEngine, st.nextTid)],
      trace := st.trace ++ [.createT st.nextTid ⟨some sid, true⟩,
                            .insertS sid st.nextTid,
                            .bindT serverEngine st.nextTid] } : MuxState).sessions sid
      = some ⟨st.nextTid⟩ := sessionsGet_set_self _ _ _
  rw [threadStep_start_present _ conn2 env2 hs hget]
  exact ⟨rfl, hget, rfl, rfl⟩

/-- C7 witness: the creation segment for "abc" at process start inserts the
registry entry before recording the engine binding, and a concurrent second
request finds the in-progress session. -/
theorem mux_C7_witness :
    ("abc" ≠ "") ∧
    (threadStep initState ⟨some "abc", 0, ⟨true, true⟩, .start⟩).1.trace
      = [.createT 0 ⟨some "abc", true⟩, .insertS "abc" 0, .bindT serverEngine 0] :=
  ⟨by decide,
   (mux_C7 initState 0 1 true ⟨true, true⟩ (by decide) (by decide)).1⟩

/-- C3: at every reachable state of the multiplexer the Session Registry has
pairwise-distinct keys (at most one entry per `sessionId`); a handler step
either leaves the registry unchanged or is the stateful creation step
inserting the request's fresh `sessionId`; and a close-event firing only
removes entries (the result is a sublist) — no other path mutates the
registry. -/
theorem mux_C3 (st : MuxState) (h : Reachable st) :
    keysNodup st ∧
    (∀ t : Thread, (threadStep st t).1.sessions = st.sessions ∨
      ∃ sid, t.pc = .start ∧ t.q = some sid ∧ sid ≠ "" ∧
        sessionsGet st.sessions sid = none ∧
        (threadStep st t).1.sessions = sessionsSet st.sessions sid ⟨st.nextTid⟩) ∧
    (∀ conn : Nat, List.Sublist (fireClose st conn).sessions st.sessions) := by
  refine ⟨reachable_keysNodup h, ?_, fun conn => fireClose_sessions_sublist st conn⟩
  intro t
  rcases threadStep_state_cases st t with ⟨hs, _⟩ | ⟨hs, _⟩ | ⟨sid, h1, h2, h3, h4, h5, _⟩
  · exact Or.inl hs
  · exact Or.inl hs
  · exact Or.inr ⟨sid, h1, h2, h3, h4, h5⟩

/-- C3 witness: the initial state is reachable and its registry has unique
keys. -/
theorem mux_C3_witness : Reachable initState ∧ keysNodup initState :=
  ⟨Reachable.init, (mux_C3 initState Reachable.init).1⟩

/-- C1 counterexample: `res.on("close", ...)` keeps the listener registered
and the hook body calls `transport.close()` unconditionally, so if the close
event fires twice the transport's close operation is invoked twice — not
exactly once as claimed (input: session "abc" created at process start,
close event of connection 0 fired twice). -/
theorem mux_C1_counterexample :
    ¬ ((fireClose (fireClose (handle initState (some "abc") 0 ⟨true, true⟩).1 0)
        0).closedLog.count 0 = 1) ∧
    (fireClose (fireClose (handle initState (some "abc") 0 ⟨true, true⟩).1 0)
        0).closedLog.count 0 = 2 := by
  exact ⟨by decide, by decide⟩

/-- C1 (amended): when the owning connection's close event fires for a
stateful session, the registered hook closes the transport AND removes the
`sessionId` entry from the registry — both happen, and the removal comes
strictly after the close in the effect trace; the close operation is invoked
exactly once per firing of the event (a second firing invokes the idempotent
close a second time rather than being suppressed); and a later request
carrying that `sessionId` finds the entry absent and re-creates a fresh
session whose new transport — not the closed one — is driven. -/
theorem mux_C1_amended (st : MuxState) {sid : String} (conn conn2 : Nat) (d d2 : Bool)
    (hs : sid ≠ "") (habs : sessionsGet st.sessions sid = none)
    (hc : ∀ p ∈ st.hooks, p.1 ≠ conn) :
    (handle st (some sid) conn ⟨true, d⟩).1.hooks
      = st.hooks ++ [(conn, [.closeTransport st.nextTid, .deleteSession sid])] ∧
    (fireClose (handle st (some sid) conn ⟨true, d⟩).1 conn).closedLog
      = (handle st (some sid) conn ⟨true, d⟩).1.closedLog ++ [st.nextTid] ∧
    (fireClose (handle st (some sid) conn ⟨true, d⟩).1 conn).trace
      = (handle st (some sid) conn ⟨true, d⟩).1.trace
          ++ [.closeT st.nextTid, .deleteS sid] ∧
    sessionsGet (fireClose (handle st (some sid) conn ⟨true, d⟩).1 conn).sessions sid
      = none ∧
    (fireClose (fireClose (handle st (some sid) conn ⟨true, d⟩).1 conn) conn).closedLog
      = (handle st (some sid) conn ⟨true, d⟩).1.closedLog
          ++ [st.nextTid, st.nextTid] ∧
    (handle (fireClose (handle st (some sid) conn ⟨true, d⟩).1 conn) (some sid) conn2
        ⟨true, d2⟩).1.created
      = (fireClose (handle st (some sid) conn ⟨true, d⟩).1 conn).created
          ++ [((fireClose (handle st (some sid) conn ⟨true, d⟩).1 conn).nextTid,
              ⟨some sid, true⟩)] ∧
    (fireClose (handle st (some sid) conn ⟨true, d⟩).1 conn).nextTid ≠ st.nextTid ∧
    (handle (fireClose (handle st (some sid) conn ⟨true, d⟩).1 conn) (some sid) conn2
        ⟨true, d2⟩).1.drives
      = (fireClose (handle st (some sid) conn ⟨true, d⟩).1 conn).drives
          ++ [(fireClose (handle st (some sid) conn ⟨true, d⟩).1 conn).nextTid] := by
  have e1 := handle_created_ok st conn d hs habs
  have hfil : ((handle st (some sid) conn ⟨true, d⟩).1).hooks.filter
      (fun p => decide (p.1 = conn))
      = [(conn, [HookAction.closeTransport st.nextTid,
                 HookAction.deleteSession sid])] := by
    rw [e1]
    exact filter_hooks_append _ _ _ hc
  have eB : fireClose (handle st (some sid) conn ⟨true, d⟩).1 conn
      = { (handle st (some sid) conn ⟨true, d⟩).1 with
          sessions := sessionsDelete
            ((handle st (some sid) conn ⟨true, d⟩).1).sessions sid,
          closedLog := ((handle st (some sid) conn ⟨true, d⟩).1).closedLog
            ++ [st.nextTid],
          trace := ((handle st (some sid) conn ⟨true, d⟩).1).trace
            ++ [.closeT st.nextTid, .deleteS sid] } := by
    rw [fireClose_single _ conn _ hfil, runHookActions_close_delete]
  have hAsess : ((handle st (some sid) conn ⟨true, d⟩).1).sessions
      = sessionsSet st.sessions sid ⟨st.nextTid⟩ := by
    rw [e1]
  have hBget : sessionsGet
      (fireClose (handle st (some sid) conn ⟨true, d⟩).1 conn).sessions sid = none := by
    rw [eB]
    show sessionsGet (sessionsDelete
      ((handle st (some sid) conn ⟨true, d⟩).1).sessions sid) sid = none
    rw [hAsess, sessionsDelete_set_absent _ _ habs]
    exact habs
  have hfilB : (fireClose (handle st (some sid) conn ⟨true, d⟩).1 conn).hooks.filter
      (fun p => decide (p.1 = conn))
      = [(conn, [HookAction.closeTransport st.nextTid,
                 HookAction.deleteSession sid])] := by
    rw [eB]
    exact hfil
  have eC : fireClose (fireClose (handle st (some sid) conn ⟨true, d⟩).1 conn) conn
      = { fireClose (handle st (some sid) conn ⟨true, d⟩).1 conn with
          sessions := sessionsDelete
            (fireClose (handle st (some sid) conn ⟨true, d⟩).1 conn).sessions sid,
          closedLog := (fireClose (handle st (some sid) conn
            ⟨true, d⟩).1 conn).closedLog ++ [st.nextTid],
          trace := (fireClose (handle st (some sid) conn ⟨true, d⟩).1 conn).trace
            ++ [.closeT st.nextTid, .deleteS sid] } := by
    rw [fireClose_single _ conn _ hfilB, runHookActions_close_delete]
  have eD := handle_created_ok (fireClose (handle st (some sid) conn ⟨true, d⟩).1 conn)
    conn2 d2 hs hBget
  refine ⟨?_, ?_, ?_, hBget, ?_, ?_, ?_, ?_⟩
  · rw [e1]
  · rw [eB]
  · rw [eB]
  · rw [eC, eB]
    simp
  · rw [eD]
  · rw [eB, e1]
    simp
  · rw [eD]

/-- C1 witness: the amended claim at process start, session "abc", owning
connection 0: the registered hook closes the transport and then deletes the
entry. -/
theorem mux_C1_witness :
    (handle initState (some "abc") 0 ⟨true, true⟩).1.hooks
      = initState.hooks ++ [(0, [.closeTransport initState.nextTid,
                                 .deleteSession "abc"])] :=
  (mux_C1_amended initState 0 1 true true (by decide) (by decide)
    (by simp [initState])).1

/-- C9: if two requests carrying the same never-before-seen `sessionId` are
executed concurrently, then under EVERY interleaving of their atomic
segments at most one transport is ever created for that `sessionId` — and
exactly one as soon as any segment has run.  The registry check-then-insert
sits inside one synchronous segment of the handler, which the
run-to-completion runtime executes atomically. -/
theorem mux_C9 (sid : String) (c1 c2 : Nat) (e1 e2 : ReqEnv) (sched : List Bool)
    (hs : sid ≠ "") :
    createdFor (runSched ⟨initState, threadInit (some sid) c1 e1,
        threadInit (some sid) c2 e2⟩ sched).st sid ≤ 1 ∧
    (sched ≠ [] → createdFor (runSched ⟨initState, threadInit (some sid) c1 e1,
        threadInit (some sid) c2 e2⟩ sched).st sid = 1) := by
  have h0 : createdFor initState sid =
      if (sessionsGet initState.sessions sid).isSome then 1 else 0 := by
    simp [createdFor, initState, sessionsGet]
  have hinv := runSched_inv sched ⟨initState, threadInit (some sid) c1 e1,
      threadInit (some sid) c2 e2⟩ h0
  constructor
  · rw [hinv]
    split <;> omega
  · intro hne
    rcases sched with _ | ⟨b, rest⟩
    · exact absurd rfl hne
    · have hpres : ∃ r2, sessionsGet (schedStep ⟨initState,
          threadInit (some sid) c1 e1, threadInit (some sid) c2 e2⟩ b).st.sessions sid
          = some r2 := by
        cases b
        · exact threadStep_start_makes_present initState c2 e2 hs
        · exact threadStep_start_makes_present initState c1 e1 hs
      rcases hpres with ⟨r2, hr2⟩
      rcases runSched_present_mono rest _ hr2 with ⟨r3, hr3⟩
      have hstep : runSched ⟨initState, threadInit (some sid) c1 e1,
          threadInit (some sid) c2 e2⟩ (b :: rest)
          = runSched (schedStep ⟨initState, threadInit (some sid) c1 e1,
            threadInit (some sid) c2 e2⟩ b) rest := rfl
      rw [hstep] at hinv ⊢
      rw [hinv]
      simp [hr3]

/-- C9 witness: two interleaved first-contact requests for "abc" under a
fully alternating schedule create exactly one transport. -/
theorem mux_C9_witness :
    ("abc" ≠ "") ∧
    createdFor (runSched ⟨initState, threadInit (some "abc") 0 ⟨true, true⟩,
        threadInit (some "abc") 1 ⟨true, true⟩⟩
      [true, false, true, false, true, false]).st "abc" = 1 :=
  ⟨by decide,
   (mux_C9 "abc" 0 1 ⟨true, true⟩ ⟨true, true⟩ [true, false, true, false, true, false]
     (by decide)).2 (by decide)⟩

end Mux
